import Mathlib

set_option maxRecDepth 10000

/-!
Verification of the storage core of the IQTEK REST API repository
(files myfactory.py and myrepository.py of the most developed variant).

Modelling conventions:
- Python strings that end up in storage are modelled by their UTF-8 byte
  sequences (`List Nat`); `str.encode("utf-8")` is then the identity and
  `bytes.decode("utf-8")` is the identity on the stripped slot content.
  All concrete titles in the specification are ASCII, where a character
  equals its byte.
- Python `bytearray` indexing and slicing, including negative indices,
  is modelled exactly (`pyNorm`, `pyGetByte`, `pySetByte`, `pySlice`).
- An uncaught Python exception (IndexError on the bytearray) is modelled
  by `Option`: a repository call that raises returns `none`.
- The MySQL server is an external collaborator; its statement semantics
  (SELECT / INSERT with PRIMARY KEY / UPDATE / DELETE over the table
  `(id INT PRIMARY KEY, title VARCHAR(255))`) are modelled as pure
  functions over an association table, per the schema the code creates.
  Connection failures are not modelled (the happy path is deterministic).
-/

/-- ASCII string to its byte sequence (equal to UTF-8 for ASCII input). -/
def asciiBytes (s : String) : List Nat :=
  s.data.map Char.toNat

/-- Domain record: an id plus an ordered mapping of named byte-string
fields, mirroring class Entity / User of myfactory.py. -/
structure Entity where
  id : Int
  properties : List (String × List Nat)
deriving DecidableEq, Repr

/-- Lookup of the required "title" property, as entity.properties["title"]
in myrepository.py (factory-made entities always carry the key). -/
def Entity.title (e : Entity) : List Nat :=
  (List.lookup "title" e.properties).getD []

/-- The User entities built by the repositories via factory.create with a
single "title" field. -/
def mkUser (i : Int) (t : List Nat) : Entity :=
  ⟨i, [("title", t)]⟩

/-- The sentinel empty entity made by UserFactory.create_empty:
User(-1, with empty title). -/
def emptyEntity : Entity :=
  mkUser (-1) []

/-- Python values that can be passed as the id argument of
UserFactory.create (the TypeChecker descriptor tests isinstance(value, int)). -/
inductive PyVal where
  | int (i : Int)
  | str (s : String)
deriving DecidableEq, Repr

/-- Whether a Python value is an integer. -/
def PyVal.isInt : PyVal → Bool
  | .int _ => true
  | .str _ => false

/-- UserFactory.create of myfactory.py: tries User(user_id, properties);
the TypeChecker descriptor raises TypeError unless the id is an int, the
DictChecker descriptor raises TypeError unless the properties dictionary
contains the key "title"; the except-clause catches the TypeError, prints
it, and the function returns the cached empty_entity instead. -/
def factoryCreate (uid : PyVal) (props : List (String × List Nat)) : Entity :=
  match uid with
  | .int i =>
      if (List.lookup "title" props).isSome then ⟨i, props⟩ else emptyEntity
  | .str _ => emptyEntity

/-! ### Python bytearray primitives -/

/-- Normalization of a Python index into a sequence of length len:
non-negative indices must be below len, negative ones count from the end;
anything else raises IndexError (`none`). -/
def pyNorm (len : Nat) (i : Int) : Option Nat :=
  if 0 ≤ i then
    if i < (len : Int) then some i.toNat else none
  else
    if 0 ≤ i + (len : Int) then some (i + (len : Int)).toNat else none

/-- Read db[i] with Python index semantics. -/
def pyGetByte (db : List Nat) (i : Int) : Option Nat :=
  (pyNorm db.length i).map fun j => db.getD j 0

/-- Write db[i] = v with Python index semantics. -/
def pySetByte (db : List Nat) (i : Int) (v : Nat) : Option (List Nat) :=
  (pyNorm db.length i).map fun j => db.set j v

/-- Normalization of a slice endpoint: negative endpoints are shifted by
the length and clamped at 0, non-negative ones are clamped at the length
(slices never raise). -/
def pySliceIdx (len : Nat) (i : Int) : Nat :=
  if i < 0 then (max (i + (len : Int)) 0).toNat else min i.toNat len

/-- The Python slice db[a:b]. -/
def pySlice (db : List Nat) (a b : Int) : List Nat :=
  (db.take (pySliceIdx db.length b)).drop (pySliceIdx db.length a)

/-- bytes.rstrip of zero bytes, as used on a slot before decoding. -/
def rstripZeros (l : List Nat) : List Nat :=
  (l.reverse.dropWhile (· == 0)).reverse

/-- The sequential loop for i in range(len(toDb)): db[first + i] = toDb[i]
of RepositoryBytearray.add / update; raises (`none`) as soon as one index
is out of range. -/
def writeBytes : List Nat → Int → List Nat → Option (List Nat)
  | db, _, [] => some db
  | db, i, v :: rest =>
      match pySetByte db i v with
      | none => none
      | some db' => writeBytes db' (i + 1) rest

/-! ### RepositoryBytearray -/

/-- Fixed slot width in bytes (private field __title_length = 40, also
__entry_length; the RECORD_WIDTH of the specification). -/
def entryLength : Nat := 40

/-- Fixed capacity in records (private field __db_length = 4; the
MAX_RECORDS of the specification). -/
def dbLength : Nat := 4

/-- The zero-initialized buffer bytearray(__title_length * __db_length)
built by the RepositoryBytearray constructor. -/
def byteInit : List Nat :=
  List.replicate (entryLength * dbLength) 0

/-- RepositoryBytearray.__get_address: start and end byte offsets of the
slot of a given id (may be negative; no bounds check in the source). -/
def getAddress (userId : Int) : Int × Int :=
  ((userId - 1) * (entryLength : Int),
   (userId - 1) * (entryLength : Int) + (entryLength : Int))

/-- Whether the slot of id k is occupied: its first byte, read with
Python index semantics, is non-zero (false also covers the raising case,
used only where the read is known in range). -/
def slotOccupied (db : List Nat) (k : Int) : Bool :=
  match pyGetByte db (getAddress k).1 with
  | some b => b != 0
  | none => false

/-- The slot content of id k, db[first:last]. -/
def slotContent (db : List Nat) (k : Int) : List Nat :=
  pySlice db (getAddress k).1 (getAddress k).2

/-- RepositoryBytearray.get: reads the first slot byte (IndexError is
`none`); if non-zero, decodes the slot stripped of trailing zero bytes
into a User via the factory; otherwise returns the empty entity. -/
def byteGet (db : List Nat) (userId : Int) : Option Entity :=
  match pyGetByte db (getAddress userId).1 with
  | none => none
  | some b =>
      if b ≠ 0 then
        some (mkUser userId
          (rstripZeros (pySlice db (getAddress userId).1 (getAddress userId).2)))
      else
        some emptyEntity

/-- RepositoryBytearray.add: if the first slot byte is zero, writes the
UTF-8 encoded title byte by byte from the slot start (no width check in
the source) and returns 0; otherwise returns -1 without writing. -/
def byteAdd (db : List Nat) (e : Entity) : Option (List Nat × Int) :=
  match pyGetByte db (getAddress e.id).1 with
  | none => none
  | some b =>
      if b = 0 then
        (writeBytes db (getAddress e.id).1 e.title).map fun db' => (db', 0)
      else
        some (db, -1)

/-- RepositoryBytearray.delete: if the first slot byte is non-zero,
zero-fills the whole slot and returns 0; otherwise returns -1. -/
def byteDelete (db : List Nat) (userId : Int) : Option (List Nat × Int) :=
  match pyGetByte db (getAddress userId).1 with
  | none => none
  | some b =>
      if b ≠ 0 then
        (writeBytes db (getAddress userId).1
          (List.replicate entryLength 0)).map fun db' => (db', 0)
      else
        some (db, -1)

/-- RepositoryBytearray.update: if the first slot byte is non-zero,
writes the encoded title byte by byte from the slot start (trailing bytes
of the previous content are left in place) and returns 0; otherwise
returns -1. -/
def byteUpdate (db : List Nat) (e : Entity) : Option (List Nat × Int) :=
  match pyGetByte db (getAddress e.id).1 with
  | none => none
  | some b =>
      if b ≠ 0 then
        (writeBytes db (getAddress e.id).1 e.title).map fun db' => (db', 0)
      else
        some (db, -1)

/-- The loop body sequence of RepositoryBytearray.list over an explicit
index list: for each i, computes __get_address(i), tests the first byte,
and appends factory.create(i, decoded slot) when non-zero. -/
def byteListFrom (db : List Nat) : List Nat → Option (List Entity)
  | [] => some []
  | i :: rest =>
      match pyGetByte db (getAddress (i : Int)).1 with
      | none => none
      | some b =>
          match byteListFrom db rest with
          | none => none
          | some tail =>
              if b ≠ 0 then
                some (mkUser (i : Int) (rstripZeros (pySlice db
                  (getAddress (i : Int)).1 (getAddress (i : Int)).2)) :: tail)
              else
                some tail

/-- RepositoryBytearray.list: iterates i over range(__db_length), that is
ids 0, 1, 2, 3 (the final length test of the source is the identity). -/
def byteList (db : List Nat) : Option (List Entity) :=
  byteListFrom db (List.range dbLength)

/-! ### RepositoryRAM -/

/-- RepositoryRAM.get: linear scan returning the first stored entity with
the given id, or the factory's empty entity. -/
def ramGet (db : List Entity) (userId : Int) : Entity :=
  (db.find? fun e => e.id == userId).getD emptyEntity

/-- RepositoryRAM.list (the length test of the source is the identity). -/
def ramList (db : List Entity) : List Entity :=
  db

/-- RepositoryRAM.add: appends the entity if __get_index finds no entity
with its id, returning 0; otherwise returns -1 without mutation. -/
def ramAdd (db : List Entity) (e : Entity) : List Entity × Int :=
  match db.findIdx? fun x => x.id == e.id with
  | none => (db ++ [e], 0)
  | some _ => (db, -1)

/-- RepositoryRAM.delete: removes the entity at the index found by
__get_index, returning 0; otherwise returns -1. -/
def ramDelete (db : List Entity) (userId : Int) : List Entity × Int :=
  match db.findIdx? fun x => x.id == userId with
  | some i => (db.eraseIdx i, 0)
  | none => (db, -1)

/-- RepositoryRAM.update: replaces the entity at the index found by
__get_index, returning 0; otherwise returns -1. -/
def ramUpdate (db : List Entity) (e : Entity) : List Entity × Int :=
  match db.findIdx? fun x => x.id == e.id with
  | some i => (db.set i e, 0)
  | none => (db, -1)

/-! ### RepositoryMySQL

The repository logic (cache, existence checks, return codes) is taken
from myrepository.py; the effect of each SQL statement on the table
`users (id INT PRIMARY KEY, title VARCHAR(255) NOT NULL)` is modelled
as a pure function over a list of rows, per the schema created by
__init_db (a failing INSERT on a duplicate primary key raises, is caught
inside __make_query, and leaves the table unchanged). -/

/-- A row of the users table: id and title. -/
abbrev Row := Int × List Nat

/-- SELECT * FROM users WHERE id = k. -/
def queryGet (tbl : List Row) (k : Int) : List Row :=
  tbl.filter fun r => r.1 == k

/-- INSERT INTO users (id, title) VALUES (k, t): appends the row, except
that a duplicate primary key makes the statement fail (caught inside
__make_query), leaving the table unchanged. -/
def insertRow (tbl : List Row) (k : Int) (t : List Nat) : List Row :=
  if tbl.any fun r => r.1 == k then tbl else tbl ++ [(k, t)]

/-- UPDATE users SET title = t WHERE id = k. -/
def updateRow (tbl : List Row) (k : Int) (t : List Nat) : List Row :=
  tbl.map fun r => if r.1 == k then (r.1, t) else r

/-- DELETE FROM users WHERE id = k. -/
def deleteRow (tbl : List Row) (k : Int) : List Row :=
  tbl.filter fun r => !(r.1 == k)

/-- State of RepositoryMySQL: the persistent table plus the process-local
_cache dictionary, whose only keys are ("get", user_id) mapped to the
result set of the corresponding SELECT (keys modelled by the id). -/
structure MyState where
  table : List Row
  cache : List (Int × List Row)
deriving DecidableEq, Repr

/-- The entity built from a result set: empty entity on no rows, else
factory.create(row["id"], row["title"]) from the first row. -/
def entityOfRows (rows : List Row) : Entity :=
  match rows with
  | [] => emptyEntity
  | r :: _ => mkUser r.1 r.2

/-- RepositoryMySQL.get: serves the result set from _cache under the key
("get", user_id) if present, otherwise runs the SELECT and stores its
result set in the cache; then converts the result set to an entity. -/
def mysqlGet (s : MyState) (userId : Int) : Entity × MyState :=
  match List.lookup userId s.cache with
  | some rows => (entityOfRows rows, s)
  | none =>
      let rows := queryGet s.table userId
      (entityOfRows rows, ⟨s.table, (userId, rows) :: s.cache⟩)

/-- RepositoryMySQL.list: always re-runs SELECT * FROM users (never
cached) and converts every row; no state change. -/
def mysqlList (s : MyState) : List Entity :=
  s.table.map fun r => mkUser r.1 r.2

/-- RepositoryMySQL.add: if self.get(entity.id) is the empty entity, runs
the INSERT and clears the whole cache, returning 0; otherwise returns -1
(the probing get may have populated the cache). -/
def mysqlAdd (s : MyState) (e : Entity) : MyState × Int :=
  let g := mysqlGet s e.id
  if g.1.id = -1 then
    (⟨insertRow g.2.table e.id e.title, []⟩, 0)
  else
    (g.2, -1)

/-- RepositoryMySQL.delete: if self.get(user_id) is not the empty entity,
runs the DELETE and clears the whole cache, returning 0; otherwise
returns -1. -/
def mysqlDelete (s : MyState) (userId : Int) : MyState × Int :=
  let g := mysqlGet s userId
  if g.1.id ≠ -1 then
    (⟨deleteRow g.2.table userId, []⟩, 0)
  else
    (g.2, -1)

/-- RepositoryMySQL.update: if self.get(entity.id) is not the empty
entity, runs the UPDATE and clears the whole cache, returning 0;
otherwise returns -1. -/
def mysqlUpdate (s : MyState) (e : Entity) : MyState × Int :=
  let g := mysqlGet s e.id
  if g.1.id ≠ -1 then
    (⟨updateRow g.2.table e.id e.title, []⟩, 0)
  else
    (g.2, -1)

/-- Consistency of the cache with the table: every cached result set is
the result of re-running its SELECT on the current table. Holds for all
states reachable from the initial state (empty cache), since get caches
genuine query results and every successful mutation clears the cache. -/
def CacheOK (s : MyState) : Prop :=
  ∀ k rows, List.lookup k s.cache = some rows → rows = queryGet s.table k

/-- What a cache-free get of the current table answers: the entity of the
freshly run SELECT. -/
def freshGet (tbl : List Row) (k : Int) : Entity :=
  entityOfRows (queryGet tbl k)

/-! ### The cross-backend scenario of the specification (section 8) -/

/-- Entity add(1, "Pyotr Pervy") of the scenario. -/
def ePP : Entity := mkUser 1 (asciiBytes "Pyotr Pervy")

/-- Entity add(2, "Aleksandr Pushkin") of the scenario. -/
def eAP : Entity := mkUser 2 (asciiBytes "Aleksandr Pushkin")

/-- Entity update(2, "A.S. Pushkin") of the scenario. -/
def eASP : Entity := mkUser 2 (asciiBytes "A.S. Pushkin")

/-- RAM backend state after add(1, PP), add(2, AP), list(),
update(2, ASP), delete(1); list() does not change state. -/
def ramScenarioDb : List Entity :=
  let d1 := (ramAdd [] ePP).1
  let d2 := (ramAdd d1 eAP).1
  let d3 := (ramUpdate d2 eASP).1
  (ramDelete d3 1).1

/-- Final list() of the scenario on the RAM backend. -/
def ramScenarioResult : List Entity :=
  ramList ramScenarioDb

/-- Relational backend state after the same mutations from the initial
state (empty table, empty cache); list() does not change state. -/
def mysqlScenarioState : MyState :=
  let s1 := (mysqlAdd ⟨[], []⟩ ePP).1
  let s2 := (mysqlAdd s1 eAP).1
  let s3 := (mysqlUpdate s2 eASP).1
  (mysqlDelete s3 1).1

/-- Final list() of the scenario on the relational backend. -/
def mysqlScenarioResult : List Entity :=
  mysqlList mysqlScenarioState

/-- Byte-addressed backend state after the same mutations from the
zero-initialized buffer; list() does not change state. -/
def byteScenarioDb : Option (List Nat) :=
  (byteAdd byteInit ePP).bind fun r1 =>
  (byteAdd r1.1 eAP).bind fun r2 =>
  (byteUpdate r2.1 eASP).bind fun r3 =>
  (byteDelete r3.1 1).map fun r4 => r4.1

/-- Final list() of the scenario on the byte-addressed backend. -/
def byteScenarioResult : Option (List Entity) :=
  byteScenarioDb.bind byteList

/-! ### General lemmas about the byte-level primitives -/

/-- The byte-writing loop started at a non-negative in-range offset
splices the written bytes into the buffer. -/
theorem writeBytes_spec (t : List Nat) : ∀ (db : List Nat) (j : Nat),
    j + t.length ≤ db.length →
    writeBytes db (j : Int) t = some (db.take j ++ t ++ db.drop (j + t.length)) := by
  induction t with
  | nil =>
      intro db j h
      simp [writeBytes]
  | cons v rest ih =>
      intro db j h
      have hj : j < db.length := by simp at h; omega
      have hset : pySetByte db (j : Int) v = some (db.set j v) := by
        simp [pySetByte, pyNorm, hj]
      have hcast : (j : Int) + 1 = ((j + 1 : Nat) : Int) := by push_cast; ring
      have hlen : (j + 1) + rest.length ≤ (db.set j v).length := by
        simp at h ⊢; omega
      rw [writeBytes, hset]
      simp only [hcast]
      rw [ih (db.set j v) (j + 1) hlen]
      congr 1
      rw [List.set_eq_take_cons_drop v hj]
      rw [List.take_append_eq_append_take, List.drop_append_eq_append_drop]
      have h1 : List.take (j + 1) (List.take j db) = List.take j db := by
        rw [List.take_take]; congr 1; omega
      have h2 : List.drop (j + 1 + rest.length) (List.take j db) = [] :=
        List.drop_eq_nil_of_le (by simp [List.length_take]; omega)
      have h3 : j + 1 + rest.length - j = rest.length + 1 := by omega
      rw [h1, h2]
      have hlt : (List.take j db).length = j := by simp [List.length_take]; omega
      rw [hlt, h3]
      have h4 : j + 1 - j = 1 := by omega
      rw [h4]
      have h5 : List.drop rest.length (List.drop (j + 1) db) =
          List.drop (j + (rest.length + 1)) db := by
        rw [List.drop_drop]; congr 1; omega
      simp [h5]

/-- A successful byte-writing loop started at a non-negative offset was
entirely in range. -/
theorem writeBytes_nat_bound (t : List Nat) : ∀ (db db' : List Nat) (j : Nat),
    t ≠ [] → writeBytes db (j : Int) t = some db' → j + t.length ≤ db.length := by
  induction t with
  | nil =>
      intro db db' j hne _
      exact absurd rfl hne
  | cons v rest ih =>
      intro db db' j _ h
      rw [writeBytes] at h
      by_cases hj : j < db.length
      · have hset : pySetByte db (j : Int) v = some (db.set j v) := by
          simp [pySetByte, pyNorm, hj]
        rw [hset] at h
        have hcast : (j : Int) + 1 = ((j + 1 : Nat) : Int) := by push_cast; ring
        rw [hcast] at h
        rcases rest with _ | ⟨w, ws⟩
        · simp [writeBytes] at h
          simp
          omega
        · have := ih (db.set j v) db' (j + 1) (by simp) h
          simp at this ⊢
          omega
      · have hset : pySetByte db (j : Int) v = none := by
          simp [pySetByte, pyNorm]
          omega
        rw [hset] at h
        simp at h

/-- Characterization of a successful byte-writing loop started at a
non-negative offset. -/
theorem writeBytes_nat_some (t db db' : List Nat) (j : Nat) (hne : t ≠ [])
    (h : writeBytes db (j : Int) t = some db') :
    db' = db.take j ++ t ++ db.drop (j + t.length) := by
  have hb := writeBytes_nat_bound t db db' j hne h
  rw [writeBytes_spec t db j hb] at h
  exact (Option.some.inj h).symm

/-- Leading zero bytes are fully consumed by dropWhile. -/
theorem dropWhile_zeros_replicate (m : Nat) (l : List Nat) :
    List.dropWhile (· == 0) (List.replicate m 0 ++ l) = List.dropWhile (· == 0) l := by
  induction m with
  | zero => simp
  | succ n ih => simp [List.replicate_succ, ih]

/-- Stripping trailing zero bytes after padding with zero bytes recovers
a byte string that does not itself end in a zero byte. -/
theorem rstripZeros_append_replicate (t : List Nat) (m : Nat) (h : t.getLast? ≠ some 0) :
    rstripZeros (t ++ List.replicate m 0) = t := by
  unfold rstripZeros
  rw [List.reverse_append, List.reverse_replicate, dropWhile_zeros_replicate]
  cases ht : t.reverse with
  | nil =>
      have : t = [] := by simpa using congrArg List.reverse ht
      simp [this]
  | cons a as =>
      have hla : t.getLast? = some a := by
        rw [List.getLast?_eq_head?_reverse, ht]
        rfl
      have ha : ¬(a == 0) = true := by
        simp
        intro hc
        exact h (hc ▸ hla)
      simp only [List.dropWhile_cons]
      rw [if_neg ha, ← ht, List.reverse_reverse]

/-- Reading a non-negative in-range Python index. -/
theorem pyGetByte_nat (db : List Nat) (j : Nat) (h : j < db.length) :
    pyGetByte db (j : Int) = some (db.getD j 0) := by
  simp [pyGetByte, pyNorm, h]

/-- A Python slice with non-negative in-range endpoints is a take after
a drop. -/
theorem pySlice_nat (db : List Nat) (f e : Nat) (hf : f ≤ db.length) (he : e ≤ db.length) :
    pySlice db (f : Int) (e : Int) = (db.drop f).take (e - f) := by
  unfold pySlice pySliceIdx
  have h1 : ¬((e : Int) < 0) := by omega
  have h2 : ¬((f : Int) < 0) := by omega
  simp only [if_neg h1, if_neg h2, Int.toNat_natCast]
  rw [min_eq_left he, min_eq_left hf, List.drop_take]

/-- A Python index that is neither in range nor reachable by the negative
convention raises. -/
theorem pyNorm_none (len : Nat) (i : Int) (h : i + (len : Int) < 0 ∨ (len : Int) ≤ i) :
    pyNorm len i = none := by
  unfold pyNorm
  rcases h with h | h
  · rw [if_neg (by omega), if_neg (by omega)]
  · rw [if_pos (by omega), if_neg (by omega)]

/-! ### Slot-level lemmas for the byte-addressed backend -/

/-- The slot start address of an id at least 1, as a natural number. -/
theorem getAddress_nat (k : Int) (h1 : 1 ≤ k) :
    getAddress k = ((((k - 1).toNat * entryLength : Nat) : Int),
      (((k - 1).toNat * entryLength + entryLength : Nat) : Int)) := by
  unfold getAddress
  have hnn : (0 : Int) ≤ k - 1 := by omega
  have hk : ((k - 1).toNat : Int) = k - 1 := Int.toNat_of_nonneg hnn
  simp only [Prod.mk.injEq]
  constructor <;> (push_cast [hk]; ring)

/-- Splicing a write into the buffer preserves its length. -/
theorem write_length (db t : List Nat) (f : Nat) (h : f + t.length ≤ db.length) :
    (db.take f ++ t ++ db.drop (f + t.length)).length = db.length := by
  simp [List.length_take, List.length_drop]
  omega

/-- Dropping up to the write offset exposes the written bytes. -/
theorem drop_write (db t : List Nat) (f : Nat) (h : f + t.length ≤ db.length) :
    (db.take f ++ t ++ db.drop (f + t.length)).drop f = t ++ db.drop (f + t.length) := by
  rw [List.append_assoc, List.drop_append_of_le_length (by simp [List.length_take]; omega)]
  rw [List.drop_eq_nil_of_le (by simp [List.length_take])]
  simp

/-- The byte at the write offset after a non-empty write is the head of
the written bytes. -/
theorem getD_write_head (db t : List Nat) (f : Nat) (h : f + t.length ≤ db.length)
    (ht : t ≠ []) :
    (db.take f ++ t ++ db.drop (f + t.length)).getD f 0 = t.headD 0 := by
  have h0 := drop_write db t f h
  have h1 : (db.take f ++ t ++ db.drop (f + t.length)).getD f 0
      = ((db.take f ++ t ++ db.drop (f + t.length)).drop f).getD 0 0 := by
    rw [List.getD_eq_getElem?_getD, List.getD_eq_getElem?_getD, List.getElem?_drop]
    simp
  rw [h1, h0]
  rcases t with _ | ⟨a, as⟩
  · exact absurd rfl ht
  · rfl

/-- The written slot reads back as the written bytes padded with the
following bytes of the old buffer. -/
theorem slice_write (db t : List Nat) (f : Nat)
    (hfe : f + entryLength ≤ db.length) (htl : t.length ≤ entryLength) :
    pySlice (db.take f ++ t ++ db.drop (f + t.length)) (f : Int)
        ((f + entryLength : Nat) : Int)
      = t ++ ((db.drop f).take entryLength).drop t.length := by
  have hb : f + t.length ≤ db.length := by omega
  have hlen := write_length db t f hb
  rw [pySlice_nat _ f (f + entryLength) (by omega) (by omega)]
  rw [drop_write db t f hb]
  have h1 : f + entryLength - f = entryLength := by omega
  rw [h1]
  rw [List.take_append_eq_append_take]
  rw [List.take_of_length_le (by omega)]
  congr 1
  rw [List.drop_take, List.drop_drop]

/-- A clean slot starts with a zero byte. -/
theorem clean_slot_head (db : List Nat) (f : Nat)
    (hclean : (db.drop f).take entryLength = List.replicate entryLength 0) :
    db.getD f 0 = 0 := by
  have h1 : db.getD f 0 = (db.drop f).getD 0 0 := by
    rw [List.getD_eq_getElem?_getD, List.getD_eq_getElem?_getD, List.getElem?_drop]
    simp
  rw [h1]
  have h2 : (db.drop f).getD 0 0 = ((db.drop f).take entryLength).getD 0 0 := by
    rw [List.getD_eq_getElem?_getD, List.getD_eq_getElem?_getD, List.getElem?_take]
    norm_num [entryLength]
  rw [h2, hclean]
  rfl

/-- Adding a title with non-zero first byte, no trailing zero byte, and
width at most the slot width into a clean in-range slot, then reading the
id back, returns exactly the added entity. -/
theorem byte_add_get_roundtrip (db : List Nat) (k : Int) (t : List Nat)
    (hdb : db.length = entryLength * dbLength)
    (hk1 : 1 ≤ k) (hk4 : k ≤ (dbLength : Int))
    (hclean : slotContent db k = List.replicate entryLength 0)
    (ht : t ≠ []) (hh : t.headD 0 ≠ 0) (hl : t.getLast? ≠ some 0)
    (htl : t.length ≤ entryLength) :
    ∃ db', byteAdd db (mkUser k t) = some (db', 0) ∧
      byteGet db' k = some (mkUser k t) := by
  have hga := getAddress_nat k hk1
  set f : Nat := (k - 1).toNat * entryLength with hfdef
  have hkn : (k - 1).toNat ≤ dbLength - 1 := by
    have e2 : dbLength = 4 := rfl
    omega
  have e1 : entryLength = 40 := rfl
  have e2 : dbLength = 4 := rfl
  have hf4 : f + entryLength ≤ db.length := by
    rw [hdb, hfdef, e1]
    rw [e2] at hkn ⊢
    omega
  have hflt : f < db.length := by
    have := hf4
    rw [e1] at this
    omega
  have hclean' : (db.drop f).take entryLength = List.replicate entryLength 0 := by
    have hc := hclean
    unfold slotContent at hc
    rw [hga] at hc
    rw [pySlice_nat db f (f + entryLength) (by omega) (by omega)] at hc
    have harith : f + entryLength - f = entryLength := by omega
    rw [harith] at hc
    exact hc
  have h0 : db.getD f 0 = 0 := clean_slot_head db f hclean'
  have hW := writeBytes_spec t db f (by omega)
  have hlen' : (db.take f ++ t ++ db.drop (f + t.length)).length = db.length :=
    write_length db t f (by omega)
  have hpg : pyGetByte db (getAddress k).1 = some 0 := by
    rw [hga]
    exact (pyGetByte_nat db f hflt).trans (by rw [h0])
  have hwt : writeBytes db (getAddress k).1 t
      = some (db.take f ++ t ++ db.drop (f + t.length)) := by
    rw [hga]
    exact hW
  have hid : (mkUser k t).id = k := rfl
  have htitle : (mkUser k t).title = t := rfl
  refine ⟨db.take f ++ t ++ db.drop (f + t.length), ?_, ?_⟩
  · simp [byteAdd, hid, htitle, hpg, hwt]
  · have hpg2 : pyGetByte (db.take f ++ t ++ db.drop (f + t.length)) (getAddress k).1
        = some (t.headD 0) := by
      rw [hga]
      exact (pyGetByte_nat _ f (by rw [hlen']; omega)).trans
        (by rw [getD_write_head db t f (by omega) ht])
    have hsl : pySlice (db.take f ++ t ++ db.drop (f + t.length))
        (getAddress k).1 (getAddress k).2
        = t ++ List.replicate (entryLength - t.length) 0 := by
      rw [hga]
      have := slice_write db t f hf4 htl
      rw [this, hclean', List.drop_replicate]
    simp only [List.append_assoc] at hpg2 hsl
    have hh' : t.head?.getD 0 ≠ 0 := by simpa using hh
    simp [byteGet, hpg2, hsl, hh', rstripZeros_append_replicate t _ hl]

/-- For an id inside 1..dbLength, get is total: it decodes the slot when
occupied and answers the empty entity otherwise. -/
theorem byteGet_inrange (db : List Nat) (k : Int)
    (hdb : db.length = entryLength * dbLength)
    (hk1 : 1 ≤ k) (hk4 : k ≤ (dbLength : Int)) :
    byteGet db k = some (if slotOccupied db k then
      mkUser k (rstripZeros (slotContent db k)) else emptyEntity) := by
  have hga := getAddress_nat k hk1
  set f : Nat := (k - 1).toNat * entryLength with hfdef
  have hkn : (k - 1).toNat ≤ dbLength - 1 := by
    have e2 : dbLength = 4 := rfl
    omega
  have e1 : entryLength = 40 := rfl
  have e2 : dbLength = 4 := rfl
  have hflt : f < db.length := by
    rw [hdb, hfdef, e1]
    rw [e2] at hkn ⊢
    omega
  have hpg : pyGetByte db (getAddress k).1 = some (db.getD f 0) := by
    rw [hga]
    exact pyGetByte_nat db f hflt
  simp [byteGet, slotOccupied, slotContent, hpg]
  split <;> rfl

/-- For an id beyond either end of the addressable range, the slot start
resolves outside the buffer and get raises IndexError. -/
theorem byteGet_outrange (db : List Nat) (k : Int)
    (hdb : db.length = entryLength * dbLength)
    (hk : k ≤ -((dbLength : Int) - 1) - 1 ∨ (dbLength : Int) + 1 ≤ k) :
    byteGet db k = none := by
  have hnone : pyNorm db.length (getAddress k).1 = none := by
    apply pyNorm_none
    rw [hdb]
    unfold getAddress
    have e1 : ((entryLength * dbLength : Nat) : Int) = 160 := by norm_num [entryLength, dbLength]
    have e2 : ((entryLength : Nat) : Int) = 40 := by norm_num [entryLength]
    rw [e1, e2]
    have e3 : ((dbLength : Nat) : Int) = 4 := by norm_num [dbLength]
    rw [e3] at hk
    simp only
    rcases hk with h | h
    · left; nlinarith
    · right; nlinarith
  simp only [byteGet, pyGetByte, hnone]
  rfl

/-! ### Lemmas about the RAM backend -/

/-- With no stored entity of the requested id, the scan of get falls
through to the empty entity. -/
theorem ramGet_absent (db : List Entity) (k : Int) (h : ∀ e ∈ db, e.id ≠ k) :
    ramGet db k = emptyEntity := by
  unfold ramGet
  rw [List.find?_eq_none.mpr]
  · rfl
  · intro x hx
    simp [h x hx]

/-- The scan of get returns a stored entity bearing the requested id when
one is present. -/
theorem ramGet_present (db : List Entity) (k : Int) (e : Entity)
    (he : e ∈ db) (hid : e.id = k) :
    ramGet db k ∈ db ∧ (ramGet db k).id = k := by
  unfold ramGet
  cases hf : db.find? fun x => x.id == k with
  | none =>
      exact absurd (List.find?_eq_none.mp hf e he) (by simp [hid])
  | some y =>
      refine ⟨List.mem_of_find?_eq_some hf, ?_⟩
      have := List.find?_some hf
      simpa using this

/-! ### Lemmas about the relational backend -/

/-- Getting through an empty cache is a fresh query of the table. -/
theorem mysqlGet_fresh (s : MyState) (k : Int) (h : s.cache = []) :
    (mysqlGet s k).1 = freshGet s.table k := by
  unfold mysqlGet freshGet
  rw [h]
  rfl

/-- The probing get never changes the table. -/
theorem mysqlGet_table (s : MyState) (k : Int) :
    (mysqlGet s k).2.table = s.table := by
  unfold mysqlGet
  cases List.lookup k s.cache <;> rfl

/-- On a consistent state, a get that answers the empty entity for an id
other than -1 means the table has no row with that id. -/
theorem mysqlGet_sentinel (s : MyState) (k : Int) (hok : CacheOK s)
    (hk : k ≠ -1) (h : (mysqlGet s k).1.id = -1) :
    queryGet s.table k = [] := by
  unfold mysqlGet at h
  have main : ∀ rows, rows = queryGet s.table k → (entityOfRows rows).id = -1 →
      queryGet s.table k = [] := by
    intro rows hrows hid
    cases hcase : rows with
    | nil => rw [← hrows, hcase]
    | cons r rs =>
        rw [hcase] at hid
        have hr : r ∈ queryGet s.table k := by
          rw [← hrows, hcase]; exact List.mem_cons_self r rs
        have : r.1 = k := by
          have := List.of_mem_filter hr
          simpa using this
        simp [entityOfRows, mkUser] at hid
        exact absurd (this ▸ hid) hk
  cases hl : List.lookup k s.cache with
  | some rows =>
      rw [hl] at h
      exact main rows (hok k rows hl) h
  | none =>
      rw [hl] at h
      exact main (queryGet s.table k) rfl h

/-- A state with an empty cache is trivially consistent. -/
theorem cacheOK_nil (tbl : List Row) : CacheOK ⟨tbl, []⟩ := by
  intro k rows h
  simp [List.lookup] at h

/-- On a consistent state, get answers exactly what a fresh query of the
current table answers, cache hit or not. -/
theorem mysqlGet_consistent (s : MyState) (k : Int) (hok : CacheOK s) :
    (mysqlGet s k).1 = freshGet s.table k := by
  unfold mysqlGet freshGet
  cases hl : List.lookup k s.cache with
  | some rows => simp [hok k rows hl]
  | none => simp

/-- A successful add ends with an empty cache. -/
theorem mysqlAdd_cache_empty (s : MyState) (e : Entity) (s' : MyState)
    (h : mysqlAdd s e = (s', 0)) : s'.cache = [] := by
  unfold mysqlAdd at h
  by_cases hg : (mysqlGet s e.id).1.id = -1
  · rw [if_pos hg] at h
    cases h
    rfl
  · rw [if_neg hg] at h
    simp at h

/-- A successful update ends with an empty cache. -/
theorem mysqlUpdate_cache_empty (s : MyState) (e : Entity) (s' : MyState)
    (h : mysqlUpdate s e = (s', 0)) : s'.cache = [] := by
  unfold mysqlUpdate at h
  by_cases hg : (mysqlGet s e.id).1.id = -1
  · rw [if_neg (by simp [hg])] at h
    simp at h
  · rw [if_pos hg] at h
    cases h
    rfl

/-- A successful delete ends with an empty cache. -/
theorem mysqlDelete_cache_empty (s : MyState) (i : Int) (s' : MyState)
    (h : mysqlDelete s i = (s', 0)) : s'.cache = [] := by
  unfold mysqlDelete at h
  by_cases hg : (mysqlGet s i).1.id = -1
  · rw [if_neg (by simp [hg])] at h
    simp at h
  · rw [if_pos hg] at h
    cases h
    rfl

/-- A successful add leaves an empty cache and a table extended by the
new row. -/
theorem mysqlAdd_success (s : MyState) (e : Entity) (s' : MyState)
    (hok : CacheOK s) (hid : e.id ≠ -1)
    (h : mysqlAdd s e = (s', 0)) :
    queryGet s.table e.id = [] ∧ s' = ⟨s.table ++ [(e.id, e.title)], []⟩ := by
  unfold mysqlAdd at h
  by_cases hg : (mysqlGet s e.id).1.id = -1
  · have habs := mysqlGet_sentinel s e.id hok hid hg
    rw [if_pos hg] at h
    have hnot : ¬(s.table.any fun r => r.1 == e.id) := by
      rw [List.any_eq_true]
      rintro ⟨r, hr, hrid⟩
      have : r ∈ queryGet s.table e.id := List.mem_filter.mpr ⟨hr, hrid⟩
      rw [habs] at this
      exact absurd this (List.not_mem_nil r)
    refine ⟨habs, ?_⟩
    have : insertRow (mysqlGet s e.id).2.table e.id e.title
        = s.table ++ [(e.id, e.title)] := by
      rw [mysqlGet_table]
      unfold insertRow
      rw [if_neg hnot]
    rw [this] at h
    exact (Prod.mk.injEq _ _ _ _ ▸ h).1.symm ▸ rfl
  · rw [if_neg hg] at h
    have : (-1 : Int) = 0 := congrArg Prod.snd h
    exact absurd this (by norm_num)

/-! ### Claim theorems -/

/-- C1: on the operation sequence add(1, Pyotr Pervy), add(2, Aleksandr
Pushkin), list(), update(2, A.S. Pushkin), delete(1), list(), the RAM and
relational backends end with list() returning exactly the one entity with
id 2 and title A.S. Pushkin, but the byte-addressed backend ends with the
one entity with id 2 and title A.S. Pushkinshkin: its update overwrites
only the first bytes of the slot and leaves the tail of the longer
previous title in place, so the claim fails on that backend. -/
theorem c1_scenario_final_states :
    ramScenarioResult = [eASP] ∧
    mysqlScenarioResult = [eASP] ∧
    byteScenarioResult = some [mkUser 2 (asciiBytes "A.S. Pushkinshkin")] ∧
    mkUser 2 (asciiBytes "A.S. Pushkinshkin") ≠ eASP := by
  refine ⟨by decide, by decide, by decide, by decide⟩

/-- C2 counterexample: on the byte-addressed backend, starting from the
empty store, add of id 1 with properties mapping title to the empty
string reports success (status 0), yet the immediately following get(1)
returns the sentinel empty entity whose id is -1, not an entity with id 1
and the added properties. -/
theorem c2_roundtrip_counterexample :
    (byteAdd byteInit (mkUser 1 [])).map Prod.snd = some 0 ∧
    (byteAdd byteInit (mkUser 1 [])).bind (fun r => byteGet r.1 1)
      = some emptyEntity ∧
    emptyEntity.id ≠ 1 := by
  refine ⟨by decide, by decide, by decide⟩

/-- C2 amended: after a successful add, get of the same id returns the
added entity: unconditionally for the RAM backend; for the byte-addressed
backend provided the id is in 1..dbLength, the slot was entirely zero,
and the encoded title is non-empty, fits the slot width, and has neither
a zero first byte nor a zero last byte; for the relational backend
provided the properties are exactly one title field and the id is
not -1 (on a cache-consistent state). -/
theorem c2_roundtrip_amended :
    (∀ (db : List Entity) (e : Entity) (db' : List Entity),
      ramAdd db e = (db', 0) → ramGet db' e.id = e) ∧
    (∀ (db : List Nat) (k : Int) (t : List Nat),
      db.length = entryLength * dbLength → 1 ≤ k → k ≤ (dbLength : Int) →
      slotContent db k = List.replicate entryLength 0 →
      t ≠ [] → t.headD 0 ≠ 0 → t.getLast? ≠ some 0 → t.length ≤ entryLength →
      ∃ db', byteAdd db (mkUser k t) = some (db', 0) ∧
        byteGet db' k = some (mkUser k t)) ∧
    (∀ (s : MyState) (k : Int) (t : List Nat) (s' : MyState),
      CacheOK s → k ≠ -1 → mysqlAdd s (mkUser k t) = (s', 0) →
      (mysqlGet s' k).1 = mkUser k t) := by
  refine ⟨?_, ?_, ?_⟩
  · intro db e db' h
    unfold ramAdd at h
    cases hf : db.findIdx? (fun x => x.id == e.id) with
    | some i =>
        rw [hf] at h
        simp at h
    | none =>
        rw [hf] at h
        have hdb' : db' = db ++ [e] := by
          cases h
          rfl
        have habs : ∀ x ∈ db, ¬(x.id == e.id) = true := by
          intro x hx
          have := List.findIdx?_eq_none_iff.mp hf x hx
          simpa using this
        subst hdb'
        unfold ramGet
        rw [List.find?_append, List.find?_eq_none.mpr habs]
        simp [List.find?]
  · intro db k t hdb hk1 hk4 hclean ht hh hl htl
    exact byte_add_get_roundtrip db k t hdb hk1 hk4 hclean ht hh hl htl
  · intro s k t s' hok hk h
    obtain ⟨habs, hs'⟩ := mysqlAdd_success s (mkUser k t) s' hok hk h
    subst hs'
    rw [mysqlGet_fresh _ _ rfl]
    unfold freshGet queryGet
    rw [List.filter_append]
    unfold queryGet at habs
    have habs' : List.filter (fun r => r.1 == k) s.table = [] := habs
    rw [habs']
    simp [entityOfRows, mkUser, Entity.title]

/-- C2 witness: the amended round-trip at concrete inputs on all three
backends. -/
theorem c2_roundtrip_amended_witness :
    ramGet ([] ++ [mkUser 7 (asciiBytes "A")]) (mkUser 7 (asciiBytes "A")).id
      = mkUser 7 (asciiBytes "A") ∧
    (∃ db', byteAdd byteInit (mkUser 1 (asciiBytes "A")) = some (db', 0) ∧
      byteGet db' 1 = some (mkUser 1 (asciiBytes "A"))) ∧
    (mysqlGet ⟨[(1, asciiBytes "A")], []⟩ 1).1 = mkUser 1 (asciiBytes "A") := by
  refine ⟨?_, ?_, ?_⟩
  · exact c2_roundtrip_amended.1 [] (mkUser 7 (asciiBytes "A"))
      ([] ++ [mkUser 7 (asciiBytes "A")]) (by decide)
  · exact c2_roundtrip_amended.2.1 byteInit 1 (asciiBytes "A") (by decide)
      (by decide) (by decide) (by decide) (by decide) (by decide) (by decide)
      (by decide)
  · exact c2_roundtrip_amended.2.2 ⟨[], []⟩ 1 (asciiBytes "A")
      ⟨[(1, asciiBytes "A")], []⟩ (cacheOK_nil []) (by decide) (by decide)

/-- C3: on the relational backend, every successful add, update or delete
clears the cache, so an immediately following get answers exactly what a
fresh query of the post-mutation table answers (no staleness); concretely
add(1, A); get(1) gives title A, then update(1, B); get(1) gives title B,
not A. -/
theorem c3_cache_freshness :
    (∀ (s : MyState) (e : Entity) (s' : MyState), mysqlAdd s e = (s', 0) →
      ∀ k, (mysqlGet s' k).1 = freshGet s'.table k) ∧
    (∀ (s : MyState) (e : Entity) (s' : MyState), mysqlUpdate s e = (s', 0) →
      ∀ k, (mysqlGet s' k).1 = freshGet s'.table k) ∧
    (∀ (s : MyState) (i : Int) (s' : MyState), mysqlDelete s i = (s', 0) →
      ∀ k, (mysqlGet s' k).1 = freshGet s'.table k) ∧
    (mysqlGet (mysqlAdd ⟨[], []⟩ (mkUser 1 (asciiBytes "A"))).1 1).1
      = mkUser 1 (asciiBytes "A") ∧
    (mysqlGet (mysqlUpdate
        (mysqlGet (mysqlAdd ⟨[], []⟩ (mkUser 1 (asciiBytes "A"))).1 1).2
        (mkUser 1 (asciiBytes "B"))).1 1).1
      = mkUser 1 (asciiBytes "B") := by
  refine ⟨?_, ?_, ?_, by decide, by decide⟩
  · intro s e s' h k
    exact mysqlGet_fresh s' k (mysqlAdd_cache_empty s e s' h)
  · intro s e s' h k
    exact mysqlGet_fresh s' k (mysqlUpdate_cache_empty s e s' h)
  · intro s i s' h k
    exact mysqlGet_fresh s' k (mysqlDelete_cache_empty s i s' h)

/-- C3 witness: cache freshness applied after a concrete successful add,
update and delete. -/
theorem c3_cache_freshness_witness :
    (mysqlGet ⟨[(1, [65])], []⟩ 9).1 = freshGet [(1, [65])] 9 ∧
    (mysqlGet ⟨[(1, [66])], []⟩ 1).1 = freshGet [(1, [66])] 1 ∧
    (mysqlGet ⟨[], []⟩ 1).1 = freshGet [] 1 := by
  refine ⟨?_, ?_, ?_⟩
  · exact c3_cache_freshness.1 ⟨[], []⟩ (mkUser 1 [65]) ⟨[(1, [65])], []⟩ (by decide) 9
  · exact c3_cache_freshness.2.1 ⟨[(1, [65])], []⟩ (mkUser 1 [66])
      ⟨[(1, [66])], []⟩ (by decide) 1
  · exact c3_cache_freshness.2.2.1 ⟨[(1, [66])], []⟩ 1 ⟨[], []⟩ (by decide) 1

/-- C4: evaluation at the failing input of the width bug: on the empty
store, add of id 1 with a title of entryLength + 1 bytes reports success
and writes the whole title, changing the byte at offset entryLength (the
first byte of the slot of id 2, outside the slot of id 1) from 0 to 97:
the code performs no width check, so the frame property of the claim
fails. -/
theorem c4_width_overflow_eval :
    byteAdd byteInit (mkUser 1 (List.replicate (entryLength + 1) 97))
      = some (List.replicate (entryLength + 1) 97 ++ List.replicate 119 0, 0) ∧
    entryLength < (List.replicate (entryLength + 1) 97).length ∧
    pyGetByte (List.replicate (entryLength + 1) 97 ++ List.replicate 119 0)
      (entryLength : Int) = some 97 ∧
    pyGetByte byteInit (entryLength : Int) = some 0 := by
  refine ⟨by decide, by decide, by decide, by decide⟩

/-- C5 counterexample: on the byte-addressed backend with the empty store
(no entity of any id is stored), update of an entity with id 5 raises an
IndexError (modelled none) instead of returning the not-found status -1
with the store unchanged. -/
theorem c5_update_counterexample :
    byteUpdate byteInit (mkUser 5 (asciiBytes "B")) = none ∧
    byteList byteInit = some [] := by
  refine ⟨by decide, by decide⟩

/-- C5 amended: update of an absent id reports not-found (-1) and leaves
the store unchanged: for the RAM backend for every id; for the
byte-addressed backend for ids in 1..dbLength whose slot is unoccupied
(outside that range the code does not bounds-check: it raises or aliases
another slot through negative indexing); for the relational backend for
every id absent from the table (on a cache-consistent state, where the
probing get may grow only the cache, never the table). -/
theorem c5_update_absent_amended :
    (∀ (db : List Entity) (e : Entity), (∀ x ∈ db, x.id ≠ e.id) →
      ramUpdate db e = (db, -1)) ∧
    (∀ (db : List Nat) (k : Int) (t : List Nat),
      db.length = entryLength * dbLength → 1 ≤ k → k ≤ (dbLength : Int) →
      slotOccupied db k = false →
      byteUpdate db (mkUser k t) = some (db, -1)) ∧
    (∀ (s : MyState) (e : Entity), CacheOK s →
      (∀ r ∈ s.table, r.1 ≠ e.id) →
      (mysqlUpdate s e).2 = -1 ∧ (mysqlUpdate s e).1.table = s.table) := by
  refine ⟨?_, ?_, ?_⟩
  · intro db e h
    have hf : db.findIdx? (fun x => x.id == e.id) = none := by
      rw [List.findIdx?_eq_none_iff]
      intro x hx
      simp [h x hx]
    unfold ramUpdate
    rw [hf]
  · intro db k t hdb hk1 hk4 hocc
    have hga := getAddress_nat k hk1
    set f : Nat := (k - 1).toNat * entryLength with hfdef
    have hkn : (k - 1).toNat ≤ dbLength - 1 := by
      have e2 : dbLength = 4 := rfl
      omega
    have e1 : entryLength = 40 := rfl
    have e2 : dbLength = 4 := rfl
    have hflt : f < db.length := by
      rw [hdb, hfdef, e1]
      rw [e2] at hkn ⊢
      omega
    have hpg : pyGetByte db (getAddress k).1 = some (db.getD f 0) := by
      rw [hga]
      exact pyGetByte_nat db f hflt
    unfold slotOccupied at hocc
    rw [hpg] at hocc
    simp at hocc
    have hid : (mkUser k t).id = k := rfl
    simp [byteUpdate, hid, hpg, hocc]
  · intro s e hok habs
    have hq : queryGet s.table e.id = [] := by
      unfold queryGet
      rw [List.filter_eq_nil_iff]
      intro r hr
      simp [habs r hr]
    have hg : (mysqlGet s e.id).1 = emptyEntity := by
      rw [mysqlGet_consistent s e.id hok]
      unfold freshGet
      rw [hq]
      rfl
    unfold mysqlUpdate
    rw [if_neg (by rw [hg]; simp [emptyEntity, mkUser])]
    exact ⟨rfl, mysqlGet_table s e.id⟩

/-- C5 witness: the amended not-found update at concrete inputs on all
three backends. -/
theorem c5_update_absent_amended_witness :
    ramUpdate [] (mkUser 3 (asciiBytes "T")) = ([], -1) ∧
    byteUpdate byteInit (mkUser 2 (asciiBytes "T")) = some (byteInit, -1) ∧
    (mysqlUpdate ⟨[], []⟩ (mkUser 1 (asciiBytes "T"))).2 = -1 ∧
    (mysqlUpdate ⟨[], []⟩ (mkUser 1 (asciiBytes "T"))).1.table = [] := by
  refine ⟨?_, ?_, ?_⟩
  · exact c5_update_absent_amended.1 [] (mkUser 3 (asciiBytes "T")) (by simp)
  · exact c5_update_absent_amended.2.1 byteInit 2 (asciiBytes "T") (by decide)
      (by decide) (by decide) (by decide)
  · exact c5_update_absent_amended.2.2 ⟨[], []⟩ (mkUser 1 (asciiBytes "T"))
      (cacheOK_nil []) (by simp)

/-- C6 counterexample: on the byte-addressed backend, adding id 1 with
an empty title succeeds, and the second add of the same id succeeds again
(status 0) instead of reporting the conflict status -1: an empty title
never marks the slot occupied. -/
theorem c6_add_counterexample :
    (byteAdd byteInit (mkUser 1 [])).bind (fun r => byteAdd r.1 (mkUser 1 []))
      = some (byteInit, 0) := by
  decide

/-- C6 amended: a second add with the same id reports conflict (-1) and
leaves the store as after the first call: for the RAM backend whatever
the first call returned; for the byte-addressed backend provided the
first add succeeded with id at least 1 and a title whose first encoded
byte is non-zero; for the relational backend provided the first add
succeeded on a cache-consistent state with id other than -1. -/
theorem c6_add_conflict_amended :
    (∀ (db : List Entity) (e : Entity) (db₁ : List Entity) (r : Int) (e' : Entity),
      ramAdd db e = (db₁, r) → e'.id = e.id → ramAdd db₁ e' = (db₁, -1)) ∧
    (∀ (db : List Nat) (e : Entity) (db₁ : List Nat) (e' : Entity),
      1 ≤ e.id → e.title ≠ [] → e.title.headD 0 ≠ 0 → e'.id = e.id →
      byteAdd db e = some (db₁, 0) → byteAdd db₁ e' = some (db₁, -1)) ∧
    (∀ (s : MyState) (e : Entity) (s₁ : MyState) (e' : Entity),
      CacheOK s → e.id ≠ -1 → e'.id = e.id → mysqlAdd s e = (s₁, 0) →
      (mysqlAdd s₁ e').2 = -1 ∧ (mysqlAdd s₁ e').1.table = s₁.table) := by
  refine ⟨?_, ?_, ?_⟩
  · intro db e db₁ r e' h hid
    unfold ramAdd at h ⊢
    rw [hid]
    cases hf : db.findIdx? (fun x => x.id == e.id) with
    | none =>
        rw [hf] at h
        have hdb₁ : db₁ = db ++ [e] := by
          cases h
          rfl
        subst hdb₁
        cases hf₁ : (db ++ [e]).findIdx? (fun x => x.id == e.id) with
        | some i => rfl
        | none =>
            exfalso
            have := List.findIdx?_eq_none_iff.mp hf₁ e
              (List.mem_append_right db (List.mem_singleton_self e))
            simp at this
    | some i =>
        rw [hf] at h
        have hdb₁ : db₁ = db := by
          cases h
          rfl
        subst hdb₁
        rw [hf]
  · intro db e db₁ e' hk1 ht hh hid h
    unfold byteAdd at h ⊢
    rw [hid]
    have hga := getAddress_nat e.id hk1
    have hfst : (getAddress e.id).1 = (((e.id - 1).toNat * entryLength : Nat) : Int) := by
      rw [hga]
    set f : Nat := (e.id - 1).toNat * entryLength with hfdef
    rw [hfst] at h ⊢
    cases hpg : pyGetByte db ((f : Nat) : Int) with
    | none =>
        rw [hpg] at h
        simp at h
    | some b =>
        simp only [hpg] at h
        by_cases hb : b = 0
        · rw [if_pos hb] at h
          cases hw : writeBytes db ((f : Nat) : Int) e.title with
          | none =>
              rw [hw] at h
              simp at h
          | some w =>
              rw [hw] at h
              simp at h
              subst h
              have hbound := writeBytes_nat_bound e.title db w f ht hw
              have hshape := writeBytes_nat_some e.title db w f ht hw
              have htpos : 0 < e.title.length := List.length_pos.mpr ht
              have hlen : w.length = db.length := by
                rw [hshape]
                exact write_length db e.title f hbound
              have hhead : w.getD f 0 = e.title.headD 0 := by
                rw [hshape]
                exact getD_write_head db e.title f hbound ht
              have hpg₁ : pyGetByte w ((f : Nat) : Int) = some (e.title.headD 0) := by
                rw [pyGetByte_nat w f (by omega)]
                rw [hhead]
              have hh' : e.title.head?.getD 0 ≠ 0 := by simpa using hh
              simp [hpg₁, hh']
        · rw [if_neg hb] at h
          simp at h
  · intro s e s₁ e' hok hne hid h
    obtain ⟨habs, hs₁⟩ := mysqlAdd_success s e s₁ hok hne h
    subst hs₁
    have hg : (mysqlGet ⟨s.table ++ [(e.id, e.title)], []⟩ e'.id).1
        = mkUser e.id e.title := by
      rw [mysqlGet_fresh _ _ rfl]
      unfold freshGet queryGet
      rw [hid, List.filter_append]
      unfold queryGet at habs
      rw [habs]
      simp [entityOfRows]
    unfold mysqlAdd
    rw [if_neg (by rw [hg]; exact hne)]
    exact ⟨rfl, mysqlGet_table _ _⟩

/-- C6 witness: the amended conflict behavior at concrete inputs on all
three backends. -/
theorem c6_add_conflict_amended_witness :
    ramAdd ([] ++ [mkUser 2 (asciiBytes "X")]) (mkUser 2 (asciiBytes "Y"))
      = ([] ++ [mkUser 2 (asciiBytes "X")], -1) ∧
    byteAdd (asciiBytes "X" ++ List.replicate 159 0) (mkUser 1 (asciiBytes "Y"))
      = some (asciiBytes "X" ++ List.replicate 159 0, -1) ∧
    (mysqlAdd ⟨[(2, asciiBytes "X")], []⟩ (mkUser 2 (asciiBytes "Y"))).2 = -1 ∧
    (mysqlAdd ⟨[(2, asciiBytes "X")], []⟩ (mkUser 2 (asciiBytes "Y"))).1.table
      = [(2, asciiBytes "X")] := by
  refine ⟨?_, ?_, ?_⟩
  · exact c6_add_conflict_amended.1 [] (mkUser 2 (asciiBytes "X"))
      ([] ++ [mkUser 2 (asciiBytes "X")]) 0 (mkUser 2 (asciiBytes "Y"))
      (by decide) (by decide)
  · exact c6_add_conflict_amended.2.1 byteInit (mkUser 1 (asciiBytes "X"))
      (asciiBytes "X" ++ List.replicate 159 0) (mkUser 1 (asciiBytes "Y"))
      (by decide) (by decide) (by decide) (by decide) (by decide)
  · exact c6_add_conflict_amended.2.2 ⟨[], []⟩ (mkUser 2 (asciiBytes "X"))
      ⟨[(2, asciiBytes "X")], []⟩ (mkUser 2 (asciiBytes "Y"))
      (cacheOK_nil []) (by decide) (by decide) (by decide)

/-- C7 counterexample: on the byte-addressed backend, get(5) with the
well-formed integer id 5 raises an IndexError (modelled none): the slot
start (5-1)*40 = 160 is outside the 160-byte buffer, so get does fail
for an integer id instead of returning a stored entity or the sentinel. -/
theorem c7_get_counterexample : byteGet byteInit 5 = none := by decide

/-- C7 amended: get never fails and returns the stored entity or the
sentinel for the RAM backend (every integer id) and the relational
backend (every integer id, on a cache-consistent state); for the
byte-addressed backend this holds only for ids in 1..dbLength (decoding
the occupied slot, sentinel otherwise), while for ids at most -dbLength
or at least dbLength + 1 get raises an IndexError. -/
theorem c7_get_total_amended :
    (∀ (db : List Entity) (k : Int),
      ((∀ x ∈ db, x.id ≠ k) → ramGet db k = emptyEntity) ∧
      (∀ e ∈ db, e.id = k → ramGet db k ∈ db ∧ (ramGet db k).id = k)) ∧
    (∀ (s : MyState) (k : Int), CacheOK s →
      (mysqlGet s k).1 = freshGet s.table k) ∧
    (∀ (db : List Nat) (k : Int), db.length = entryLength * dbLength →
      (1 ≤ k → k ≤ (dbLength : Int) →
        byteGet db k = some (if slotOccupied db k then
          mkUser k (rstripZeros (slotContent db k)) else emptyEntity)) ∧
      (k ≤ -((dbLength : Int) - 1) - 1 ∨ (dbLength : Int) + 1 ≤ k →
        byteGet db k = none)) := by
  refine ⟨?_, ?_, ?_⟩
  · intro db k
    exact ⟨ramGet_absent db k, fun e he hid => ramGet_present db k e he hid⟩
  · intro s k hok
    exact mysqlGet_consistent s k hok
  · intro db k hdb
    exact ⟨fun h1 h4 => byteGet_inrange db k hdb h1 h4,
      fun h => byteGet_outrange db k hdb h⟩

/-- C7 witness: the amended get contract at concrete inputs. -/
theorem c7_get_total_amended_witness :
    ramGet [] 3 = emptyEntity ∧
    (mysqlGet ⟨[], []⟩ 3).1 = freshGet [] 3 ∧
    byteGet byteInit 1 = some (if slotOccupied byteInit 1 then
      mkUser 1 (rstripZeros (slotContent byteInit 1)) else emptyEntity) ∧
    byteGet byteInit (-4) = none := by
  refine ⟨?_, ?_, ?_, ?_⟩
  · exact (c7_get_total_amended.1 [] 3).1 (by simp)
  · exact c7_get_total_amended.2.1 ⟨[], []⟩ 3 (cacheOK_nil [])
  · exact (c7_get_total_amended.2.2 byteInit 1 (by decide)).1 (by decide) (by decide)
  · exact (c7_get_total_amended.2.2 byteInit (-4) (by decide)).2 (by decide)

/-- C8: UserFactory.create catches the descriptor TypeError and returns
the sentinel empty entity (id -1) instead of raising, whenever the
properties dictionary lacks the key title or the id is not an integer. -/
theorem c8_factory_validation :
    ∀ (v : PyVal) (props : List (String × List Nat)),
      List.lookup "title" props = none ∨ v.isInt = false →
      factoryCreate v props = emptyEntity ∧ emptyEntity.id = -1 := by
  intro v props h
  refine ⟨?_, rfl⟩
  cases v with
  | int i =>
      rcases h with h | h
      · simp [factoryCreate, h]
      · simp [PyVal.isInt] at h
  | str s => rfl

/-- C8 witness: validation failure on a missing title key and on a
non-integer id, the same inputs as the self-test of myfactory.py. -/
theorem c8_factory_validation_witness :
    (factoryCreate (PyVal.int 1) [("tit", asciiBytes "des")] = emptyEntity ∧
      emptyEntity.id = -1) ∧
    (factoryCreate (PyVal.str "1") [("title", asciiBytes "des")] = emptyEntity ∧
      emptyEntity.id = -1) := by
  refine ⟨?_, ?_⟩
  · exact c8_factory_validation (PyVal.int 1) [("tit", asciiBytes "des")]
      (Or.inl (by decide))
  · exact c8_factory_validation (PyVal.str "1") [("title", asciiBytes "des")]
      (Or.inr (by decide))

/-- C9: evaluation at the failing input of the list off-by-one bug: the
loop of list() runs over ids 0..3 instead of 1..4, so after add(4, X)
succeeds (and get(4) returns the stored entity with id 4 and title X),
list() returns the single spurious entity with id 0 and empty title
instead of containing the entity with id 4 and title X; on the empty
store list() does return the empty sequence. -/
theorem c9_list_eval :
    byteList byteInit = some [] ∧
    (byteAdd byteInit (mkUser 4 (asciiBytes "X"))).bind (fun r => byteList r.1)
      = some [mkUser 0 []] ∧
    (byteAdd byteInit (mkUser 4 (asciiBytes "X"))).bind (fun r => byteGet r.1 4)
      = some (mkUser 4 (asciiBytes "X")) ∧
    mkUser 0 [] ≠ mkUser 4 (asciiBytes "X") := by
  refine ⟨by decide, by decide, by decide, by decide⟩

/-- C10 counterexample: with the last slot occupied by the title X,
get(0) does return a non-sentinel entity with id 0, but its title is the
empty string, not the last slot's stored title X: the slice [-40:0) of
the buffer is empty in Python, so only the occupancy test reaches the
last slot. -/
theorem c10_get_zero_counterexample :
    (byteAdd byteInit (mkUser 4 (asciiBytes "X"))).bind (fun r => byteGet r.1 0)
      = some (mkUser 0 []) ∧
    (byteAdd byteInit (mkUser 4 (asciiBytes "X"))).bind (fun r => byteGet r.1 4)
      = some (mkUser 4 (asciiBytes "X")) ∧
    mkUser 0 [] ≠ mkUser 0 (asciiBytes "X") := by
  refine ⟨by decide, by decide, by decide⟩

/-- C10 amended: get(0) never reports out-of-range: it reads the first
byte of the last slot through the negative index -40; when that slot is
occupied it returns the entity with id 0 and the empty title (the slice
from -40 to 0 is empty), and when the last slot is free it returns the
sentinel. -/
theorem c10_get_zero_amended :
    ∀ (db : List Nat), db.length = entryLength * dbLength →
      (slotOccupied db (dbLength : Int) = true →
        byteGet db 0 = some (mkUser 0 [])) ∧
      (slotOccupied db (dbLength : Int) = false →
        byteGet db 0 = some emptyEntity) := by
  intro db hdb
  have h160 : db.length = 160 := by
    rw [hdb]
    rfl
  have hfst4 : (getAddress (dbLength : Int)).1 = ((120 : Nat) : Int) := by decide
  have hpg4 : pyGetByte db (getAddress (dbLength : Int)).1 = some (db.getD 120 0) := by
    rw [hfst4]
    exact pyGetByte_nat db 120 (by omega)
  have hocc : slotOccupied db (dbLength : Int) = (db.getD 120 0 != 0) := by
    unfold slotOccupied
    rw [hpg4]
  have hfst0 : (getAddress 0).1 = (-40 : Int) := by decide
  have hpg0 : pyGetByte db (getAddress 0).1 = some (db.getD 120 0) := by
    rw [hfst0]
    unfold pyGetByte pyNorm
    rw [h160]
    norm_num
    rfl
  have hsl : pySlice db (getAddress 0).1 (getAddress 0).2 = [] := by
    have hsnd0 : pySliceIdx db.length (getAddress 0).2 = 0 := by
      unfold pySliceIdx getAddress entryLength
      norm_num
    unfold pySlice
    rw [hsnd0]
    simp
  constructor
  · intro h
    rw [hocc] at h
    simp at h
    simp [byteGet, hpg0, hsl, h, rstripZeros]
  · intro h
    rw [hocc] at h
    simp at h
    simp [byteGet, hpg0, h]

/-- C10 witness: the amended get(0) behavior on a store whose last slot
holds the title X and on the empty store. -/
theorem c10_get_zero_amended_witness :
    byteGet (List.replicate 120 0 ++ (88 :: List.replicate 39 0)) 0
      = some (mkUser 0 []) ∧
    byteGet byteInit 0 = some emptyEntity := by
  refine ⟨?_, ?_⟩
  · exact (c10_get_zero_amended (List.replicate 120 0 ++ (88 :: List.replicate 39 0))
      (by decide)).1 (by decide)
  · exact (c10_get_zero_amended byteInit (by decide)).2 (by decide)
